import Mathlib

/-!
Shallow embedding of the qstash-rs client library (publish pipeline,
message cancellation and event decoding), together with proofs about it.

The embedding follows `src/client/publish.rs`, `src/client/request.rs`,
`src/client/error.rs`, `src/client/messages.rs` and `src/client/events.rs`.
HTTP transport and JSON syntax are external collaborators: a transport
interaction is modelled by its observable result (a failure, or a response
with a status code and a body that either is or is not syntactically valid
JSON), and serde-style decoding of the parsed JSON tree is modelled
directly.
-/

/-- Validity of a single byte/character inside an HTTP header value,
as checked by `http::HeaderValue::from_str` (tab, or any byte that is
not a control character and not DEL; bytes ≥ 0x80 are allowed). -/
def isValidHeaderValueChar (c : Char) : Bool :=
  c.toNat == 9 || (32 ≤ c.toNat && c.toNat != 127)

/-- A string is a valid header value when every character is. -/
def isValidHeaderValueStr (s : String) : Bool :=
  s.data.all isValidHeaderValueChar

/-- `HeaderValue::from_str`: returns the string itself when valid. -/
def headerValueFromStr (s : String) : Option String :=
  if isValidHeaderValueStr s then some s else none

/-- ASCII lower-casing of one character (HTTP header names are
case-insensitive; reqwest stores them lower-cased). -/
def lowerChar (c : Char) : Char :=
  if 65 ≤ c.toNat ∧ c.toNat ≤ 90 then Char.ofNat (c.toNat + 32) else c

/-- Normalized (lower-cased) header name. -/
def normName (s : String) : String :=
  String.mk (s.data.map lowerChar)

/-- Model of `reqwest::header::HeaderMap`: a list of (normalized name,
value) entries. Construction in the modelled code only uses `insert`,
which replaces any existing value for the name. -/
structure HeaderMap where
  entries : List (String × String)
deriving DecidableEq, Repr

/-- `HeaderMap::new()`. -/
def HeaderMap.empty : HeaderMap := ⟨[]⟩

/-- `HeaderMap::insert`: replaces the value associated with the
(case-insensitive) name. -/
def HeaderMap.insert (m : HeaderMap) (name v : String) : HeaderMap :=
  ⟨(m.entries.filter (fun p => p.1 != normName name)) ++ [(normName name, v)]⟩

/-- Look up the value stored for a (case-insensitive) header name. -/
def HeaderMap.get (m : HeaderMap) (name : String) : Option String :=
  (m.entries.find? (fun p => p.1 == normName name)).map Prod.snd

/-- `HeaderMap::contains_key` on a (case-insensitive) name. -/
def HeaderMap.containsName (m : HeaderMap) (name : String) : Bool :=
  (m.get name).isSome

/-- The error enum of `src/client/error.rs`. No variant carries data. -/
inductive QStashError where
  | TokenError
  | ReqwestError
  | InvalidUrl
  | PublishError
  | EventError
  | DeadLetterQueueError
  | GetMessageError
  | DeleteMessageError
deriving DecidableEq, Repr

/-- `PublishOptions` of `src/client/request.rs`. `delay`, `not_before`
and `retries` are `u32` (modelled as `Nat`); the HTTP method is modelled
by its token string (`Method::as_str`). -/
structure PublishOptions where
  headers : Option HeaderMap := none
  delay : Option Nat := none
  not_before : Option Nat := none
  deduplication_id : Option String := none
  content_based_deduplication : Option Bool := none
  retries : Option Nat := none
  callback : Option String := none
  method : Option String := none
deriving DecidableEq, Repr

/-- One directive step of `generate_headers`: validate the encoded value
with `HeaderValue::from_str` and insert it, failing with `PublishError`
exactly as every error arm of the source does. -/
def insertEncoded (headers : HeaderMap) (name raw : String) :
    Except QStashError HeaderMap :=
  match headerValueFromStr raw with
  | none => .error .PublishError
  | some v => .ok (headers.insert name v)

/-- An optional directive: skipped when the option is absent
(the `if let Some(...)` pattern of the source). -/
def stepOpt (headers : HeaderMap) (name : String) (raw : Option String) :
    Except QStashError HeaderMap :=
  match raw with
  | none => .ok headers
  | some r => insertEncoded headers name r

/-- The directive headers of `generate_headers`, in source order, with
the source's encodings: method token (default `POST`), `{delay}s`,
decimal `not_before`, raw deduplication id, `true`/`false`, decimal
retries, raw callback URL. -/
def directiveList (o : PublishOptions) : List (String × Option String) :=
  [("Upstash-Method", some (o.method.getD "POST")),
   ("Upstash-Delay", o.delay.map (fun d => toString d ++ "s")),
   ("Upstash-Not-Before", o.not_before.map (fun nb => toString nb)),
   ("Upstash-Deduplication-Id", o.deduplication_id),
   ("Upstash-Content-Based-Deduplication",
     o.content_based_deduplication.map (fun b => if b then "true" else "false")),
   ("Upstash-Retries", o.retries.map (fun r => toString r)),
   ("Upstash-Callback", o.callback)]

/-- Apply the directive steps in order; the first invalid value aborts. -/
def applyDirectives (headers : HeaderMap) :
    List (String × Option String) → Except QStashError HeaderMap
  | [] => .ok headers
  | (name, raw) :: rest =>
    match stepOpt headers name raw with
    | .error e => .error e
    | .ok h => applyDirectives h rest

/-- `Client::generate_headers` of `src/client/publish.rs`: start from the
caller-supplied pass-through headers (or an empty map), then insert the
directive headers in source order. -/
def generate_headers (request : PublishOptions) : Except QStashError HeaderMap :=
  applyDirectives (request.headers.getD HeaderMap.empty) (directiveList request)

/-- Boolean validity of every directive value of an options record
(exactly the checks `generate_headers` performs). -/
def directivesValid (l : List (String × Option String)) : Bool :=
  l.all (fun p => match p.2 with
    | some v => isValidHeaderValueStr v
    | none => true)

/-- `PublishRequestUrl` of `src/client/request.rs`: a direct URL or a
named topic (the URL modelled by its string form, `Url::to_string`). -/
inductive PublishRequestUrl where
  | url (u : String)
  | topic (t : String)
deriving DecidableEq, Repr

/-- Target segment of the publish path (`v.to_string()` resp. the topic
name, as in the `match &request.url` of `publish`). -/
def targetString : PublishRequestUrl → String
  | .url u => u
  | .topic t => t

/-- `PublishRequest<T>` of `src/client/request.rs`; the raw body is
modelled as an opaque byte-string, attached unchanged. -/
structure PublishRequest where
  url : PublishRequestUrl
  body : Option String := none
  headers : Option HeaderMap := none
  delay : Option Nat := none
  not_before : Option Nat := none
  deduplication_id : Option String := none
  content_based_deduplication : Option Bool := none
  retries : Option Nat := none
  callback : Option String := none
  method : Option String := none
deriving DecidableEq, Repr

/-- The `PublishOptions` value `publish` passes to `generate_headers`
(field-for-field copy of the request). -/
def optionsOfRequest (r : PublishRequest) : PublishOptions :=
  { headers := r.headers, delay := r.delay, not_before := r.not_before,
    deduplication_id := r.deduplication_id,
    content_based_deduplication := r.content_based_deduplication,
    retries := r.retries, callback := r.callback, method := r.method }

/-- The outbound HTTP request a publish call hands to the transport:
transport verb, path, header set, optional body. -/
structure BuiltRequest where
  httpMethod : String
  path : String
  headers : HeaderMap
  body : Option String
deriving DecidableEq, Repr

/-- Request construction of `Client::publish` (`src/client/publish.rs`,
lines 16-76): path `/{version}/publish/{target}`, headers from
`generate_headers` (any failure is rewrapped as `PublishError`), verb
POST, raw body attached unchanged. -/
def buildPublishRequest (version : String) (r : PublishRequest) :
    Except QStashError BuiltRequest :=
  match generate_headers (optionsOfRequest r) with
  | .error _ => .error .PublishError
  | .ok h =>
    .ok { httpMethod := "POST",
          path := "/" ++ version ++ "/publish/" ++ targetString r.url,
          headers := h, body := r.body }

/-- Request construction of `Client::publish_json` (`src/client/publish.rs`,
lines 132-184): same path and verb; headers from `generate_headers` when
options are given, otherwise `HeaderMap::new()`; then `.json(&body)`
attaches the serialized body and inserts `Content-Type: application/json`
unless that header is already present. `serializedBody` is the output of
the (external) JSON serializer. -/
def buildPublishJsonRequest (version : String) (url : PublishRequestUrl)
    (serializedBody : String) (options : Option PublishOptions) :
    Except QStashError BuiltRequest :=
  match (match options with
         | some o => generate_headers o
         | none => .ok HeaderMap.empty) with
  | .error _ => .error .PublishError
  | .ok h =>
    let h2 := if h.containsName "Content-Type" then h
              else h.insert "Content-Type" "application/json"
    .ok { httpMethod := "POST",
          path := "/" ++ version ++ "/publish/" ++ targetString url,
          headers := h2, body := some serializedBody }

/-- Spec-side construction (spec section 4.4): the headers baseline the
raw-body path is given when the caller pre-serializes JSON, namely the
pass-through headers with `Content-Type: application/json` set when not
already specified. -/
def jsonBaselineHeaders (h : HeaderMap) : HeaderMap :=
  if h.containsName "Content-Type" then h
  else h.insert "Content-Type" "application/json"

/-- Spec-side construction (spec section 4.4): the raw-body
`PublishRequest` corresponding to a `publish_json` call — the
pre-serialized JSON as body, the same delivery options, and the
content-type header set accordingly. -/
def requestForPreserializedJson (url : PublishRequestUrl)
    (serializedBody : String) (o : PublishOptions) : PublishRequest :=
  { url := url, body := some serializedBody,
    headers := some (jsonBaselineHeaders (o.headers.getD HeaderMap.empty)),
    delay := o.delay, not_before := o.not_before,
    deduplication_id := o.deduplication_id,
    content_based_deduplication := o.content_based_deduplication,
    retries := o.retries, callback := o.callback, method := o.method }

/-- JSON trees, the output of the external JSON syntax layer. -/
inductive Json where
  | null
  | bool (b : Bool)
  | num (n : Int)
  | str (s : String)
  | arr (xs : List Json)
  | obj (fields : List (String × Json))

/-- Field lookup in a JSON object. -/
def jlookup (fs : List (String × Json)) (k : String) : Option Json :=
  (fs.find? (fun p => p.1 == k)).map Prod.snd

/-- serde decoding of an `Option<String>` struct field: an absent field
or a JSON null is `None`, a string is `Some`, anything else is a decode
error. -/
def parseOptString : Option Json → Option (Option String)
  | none => some none
  | some .null => some none
  | some (.str s) => some (some s)
  | some _ => none

/-- serde decoding of an `Option<bool>` struct field. -/
def parseOptBool : Option Json → Option (Option Bool)
  | none => some none
  | some .null => some none
  | some (.bool b) => some (some b)
  | some _ => none

/-- serde decoding of an `Option<u64>` struct field. -/
def parseOptNat : Option Json → Option (Option Nat)
  | none => some none
  | some .null => some none
  | some (.num n) => if 0 ≤ n then some (some n.toNat) else none
  | some _ => none

/-- serde decoding of a required `u64` struct field. -/
def parseReqNat : Option Json → Option Nat
  | some (.num n) => if 0 ≤ n then some n.toNat else none
  | _ => none

/-- serde decoding of a required `String` struct field. -/
def parseReqString : Option Json → Option String
  | some (.str s) => some s
  | _ => none

/-- `QstashResponse` of `src/client/request.rs`: the per-target publish
outcome (camelCase on the wire, every field optional). -/
structure QstashResponse where
  message_id : Option String
  url : Option String
  error : Option String
  deduplicated : Option Bool
deriving DecidableEq, Repr

/-- serde decoding of one `QstashResponse` from a JSON tree: the tree
must be an object; each field decodes at its camelCase wire name. -/
def parseQstashResponse : Json → Option QstashResponse
  | .obj fs =>
    match parseOptString (jlookup fs "messageId"),
          parseOptString (jlookup fs "url"),
          parseOptString (jlookup fs "error"),
          parseOptBool (jlookup fs "deduplicated") with
    | some m, some u, some e, some d =>
      some { message_id := m, url := u, error := e, deduplicated := d }
    | _, _, _, _ => none
  | _ => none

/-- serde decoding of a list of outcomes, element by element in order;
any element failure fails the whole list. -/
def parseResponses : List Json → Option (List QstashResponse)
  | [] => some []
  | x :: xs =>
    match parseQstashResponse x, parseResponses xs with
    | some r, some rs => some (r :: rs)
    | _, _ => none

/-- serde decoding of `Vec<QstashResponse>` from a JSON tree. -/
def parseQstashResponseList : Json → Option (List QstashResponse)
  | .arr xs => parseResponses xs
  | _ => none

/-- What the transport hands back: a connection-level failure, or an
HTTP response with a status code and a body (`none` when the body is not
syntactically valid JSON). -/
inductive TransportResult where
  | failure
  | response (status : Nat) (body : Option Json)

/-- The destination-keyed response decode of `publish` (lines 78-95):
`Url` requests decode one outcome and wrap it in a one-element vector,
`Topic` requests decode a vector; every decode failure — including a
syntactically invalid body — is `PublishError`. The status code is not
consulted. -/
def decodeResponse (dest : PublishRequestUrl) (body : Option Json) :
    Except QStashError (List QstashResponse) :=
  match body with
  | none => .error .PublishError
  | some j =>
    match dest with
    | .url _ =>
      match parseQstashResponse j with
      | some r => .ok [r]
      | none => .error .PublishError
    | .topic _ =>
      match parseQstashResponseList j with
      | some rs => .ok rs
      | none => .error .PublishError

/-- The post-send part of `publish`: a transport failure is
`PublishError`; any received response, whatever its status, goes to the
destination-keyed decode. -/
def publishAfterSend (dest : PublishRequestUrl) (tr : TransportResult) :
    Except QStashError (List QstashResponse) :=
  match tr with
  | .failure => .error .PublishError
  | .response _ body => decodeResponse dest body

/-- `StatusCode::is_success`: 2xx. -/
def isSuccessStatus (status : Nat) : Bool :=
  200 ≤ status && status < 300

/-- The post-send part of `Client::cancel_message`
(`src/client/messages.rs`, lines 86-100): `Ok(())` exactly on a success
status, `DeleteMessageError` on any other status and on transport
failure; the body is ignored. -/
def cancelMessageResult (tr : TransportResult) : Except QStashError Unit :=
  match tr with
  | .failure => .error .DeleteMessageError
  | .response status _ =>
    if isSuccessStatus status then .ok () else .error .DeleteMessageError

/-- The `State` enum of `src/client/events.rs`; `ERROR` is marked
`#[default]`. -/
inductive State where
  | CREATED
  | ACTIVE
  | DELIVERED
  | ERROR
  | CANCELED
  | RETRY
  | FAILED
deriving DecidableEq, Repr

/-- serde decoding of the unit-variant enum `State` from a JSON tree:
exactly the seven variant-name strings succeed. -/
def parseState : Json → Option State
  | .str "CREATED" => some .CREATED
  | .str "ACTIVE" => some .ACTIVE
  | .str "DELIVERED" => some .DELIVERED
  | .str "ERROR" => some .ERROR
  | .str "CANCELED" => some .CANCELED
  | .str "RETRY" => some .RETRY
  | .str "FAILED" => some .FAILED
  | _ => none

/-- `ok_or_default` of `src/client/events.rs` (lines 40-47) applied to
`State`: decode the raw JSON value, falling back to the default variant
`ERROR` when it does not decode as a `State`. -/
def stateOrDefault (j : Json) : State :=
  (parseState j).getD State.ERROR

/-- The `Event` struct of `src/client/events.rs` (camelCase wire names). -/
structure Event where
  time : Nat
  state : State
  message_id : String
  next_delivery_time : Option Nat
  error : Option String
  url : Option String
  topic_name : Option String
  endpoint_name : Option String
deriving DecidableEq, Repr

/-- Decoding of every `Event` field except `state`, with the state value
supplied; `time` and `messageId` are required, the rest optional. -/
def parseEventFields (st : State) (fs : List (String × Json)) : Option Event :=
  match parseReqNat (jlookup fs "time"),
        parseReqString (jlookup fs "messageId"),
        parseOptNat (jlookup fs "nextDeliveryTime"),
        parseOptString (jlookup fs "error"),
        parseOptString (jlookup fs "url"),
        parseOptString (jlookup fs "topicName"),
        parseOptString (jlookup fs "endpointName") with
  | some t, some mid, some ndt, some err, some u, some tn, some en =>
    some { time := t, state := st, message_id := mid,
           next_delivery_time := ndt, error := err, url := u,
           topic_name := tn, endpoint_name := en }
  | _, _, _, _, _, _, _ => none

/-- serde decoding of one `Event`: the `state` field must be present
(it is not an `Option`), but its value goes through `ok_or_default`, so
an unrecognized value falls back to `State.ERROR` instead of failing. -/
def parseEvent : Json → Option Event
  | .obj fs =>
    match jlookup fs "state" with
    | none => none
    | some sj => parseEventFields (stateOrDefault sj) fs
  | _ => none

/-- serde decoding of `Vec<Event>`, element by element in order. -/
def parseEvents : List Json → Option (List Event)
  | [] => some []
  | x :: xs =>
    match parseEvent x, parseEvents xs with
    | some e, some es => some (e :: es)
    | _, _ => none

/-- `GetEventsResponse` of `src/client/events.rs`. -/
structure GetEventsResponse where
  cursor : Option String
  events : List Event
deriving DecidableEq, Repr

/-- serde decoding of a `GetEventsResponse`: optional `cursor`, required
`events` array. -/
def parseGetEventsResponse : Json → Option GetEventsResponse
  | .obj fs =>
    match parseOptString (jlookup fs "cursor"), jlookup fs "events" with
    | some cur, some (.arr xs) =>
      match parseEvents xs with
      | some evs => some { cursor := cur, events := evs }
      | none => none
    | _, _ => none
  | _ => none

/-- The value that a run of directive steps leaves under a given
(case-insensitive) header name: the last matching present directive, if
any. -/
def revLookup (x : String) : List (String × Option String) → Option String
  | [] => none
  | (name, raw) :: rest =>
    match revLookup x rest with
    | some v => some v
    | none => if normName x = normName name then raw else none

/-- Example options with both `delay` and `not_before` set. -/
def exOptsDelayNotBefore : PublishOptions :=
  { delay := some 5, not_before := some 10 }

/-- Example options whose deduplication id contains a control character. -/
def exOptsBadDedup : PublishOptions :=
  { deduplication_id := some "a\nb" }

/-- Example options whose callback URL contains a control character. -/
def exOptsBadCallback : PublishOptions :=
  { callback := some "a\nb" }

/-- Example options with caller-supplied pass-through headers, one of
which collides with a directive header name. -/
def exOptsCallerHeaders : PublishOptions :=
  { headers := some ⟨[("upstash-method", "DELETE"), ("x-custom", "1")]⟩,
    delay := some 7 }

/-- Example options used to exercise the JSON convenience path. -/
def exOptsJson : PublishOptions :=
  { headers := some ⟨[("x-custom", "1")]⟩, delay := some 30 }

/-- A three-element topic fan-out response body. -/
def exTopicElems : List Json :=
  [Json.obj [("messageId", Json.str "a")],
   Json.obj [("messageId", Json.str "b"), ("deduplicated", Json.bool true)],
   Json.obj [("error", Json.str "x")]]

/-- The outcomes decoded from `exTopicElems`, in the same order. -/
def exTopicOutcomes : List QstashResponse :=
  [{ message_id := some "a", url := none, error := none, deduplicated := none },
   { message_id := some "b", url := none, error := none,
     deduplicated := some true },
   { message_id := none, url := none, error := some "x", deduplicated := none }]

/-- An event object whose `state` field holds an unrecognized value. -/
def exEventObj : List (String × Json) :=
  [("time", Json.num 5), ("state", Json.str "SOMETHING_NEW"),
   ("messageId", Json.str "m1")]

theorem headerFindFilterNe (l : List (String × String)) (k : String) :
    (l.filter (fun p => p.1 != k)).find? (fun p => p.1 == k) = none := by
  induction l with
  | nil => rfl
  | cons p rest ih =>
    by_cases h : p.1 = k
    · simp only [List.filter_cons, h, bne_self_eq_false, Bool.false_eq_true,
        if_false]
      exact ih
    · have hb : (p.1 != k) = true := by
        simp only [bne_iff_ne, ne_eq]; exact h
      have hbeq : (p.1 == k) = false := by
        simp only [beq_eq_false_iff_ne, ne_eq]; exact h
      simp only [List.filter_cons, hb, if_true, List.find?, hbeq]
      exact ih

theorem headerFindFilterOfNe (l : List (String × String)) (k x : String)
    (hx : x ≠ k) :
    (l.filter (fun p => p.1 != k)).find? (fun p => p.1 == x) =
      l.find? (fun p => p.1 == x) := by
  induction l with
  | nil => rfl
  | cons p rest ih =>
    by_cases h : p.1 = k
    · have hpx : (p.1 == x) = false := by
        simp only [beq_eq_false_iff_ne, ne_eq]
        intro hpxeq
        exact hx (hpxeq ▸ h)
      have hb0 : (p.1 != k) = false := by simp [h]
      simp only [List.filter_cons, hb0, Bool.false_eq_true, if_false,
        List.find?, hpx]
      exact ih
    · have hb : (p.1 != k) = true := by
        simp only [bne_iff_ne, ne_eq]; exact h
      by_cases h2 : p.1 = x
      · have hpx : (p.1 == x) = true := by
          simp only [beq_iff_eq]; exact h2
        simp [List.filter_cons, hb, List.find?, hpx]
      · have hpx : (p.1 == x) = false := by
          simp only [beq_eq_false_iff_ne, ne_eq]; exact h2
        simp only [List.filter_cons, hb, if_true, List.find?, hpx]
        exact ih

theorem HeaderMap.get_insert (m : HeaderMap) (name v x : String) :
    (m.insert name v).get x =
      if normName x = normName name then some v else m.get x := by
  unfold HeaderMap.insert HeaderMap.get
  by_cases h : normName x = normName name
  · rw [if_pos h]
    have h1 : (m.entries.filter (fun p => p.1 != normName name)).find?
        (fun p => p.1 == normName x) = none := by
      rw [h]; exact headerFindFilterNe m.entries (normName name)
    simp [List.find?_append, h1, List.find?, h.symm]
  · rw [if_neg h]
    have h1 : (m.entries.filter (fun p => p.1 != normName name)).find?
        (fun p => p.1 == normName x) =
        m.entries.find? (fun p => p.1 == normName x) :=
      headerFindFilterOfNe m.entries (normName name) (normName x) h
    have h2 : ((normName name, v).1 == normName x) = false := by
      simp; exact fun hk => h hk.symm
    cases hfind : m.entries.find? (fun p => p.1 == normName x) with
    | none => simp [List.find?_append, h1, hfind, List.find?, h2]
    | some q => simp [List.find?_append, h1, hfind]

theorem headerValueFromStr_some {r v : String}
    (hv : headerValueFromStr r = some v) :
    isValidHeaderValueStr r = true ∧ v = r := by
  unfold headerValueFromStr at hv
  by_cases hb : isValidHeaderValueStr r
  · rw [if_pos hb] at hv
    exact ⟨hb, (Option.some.inj hv).symm⟩
  · rw [if_neg hb] at hv
    cases hv

theorem applyDirectives_ok_get (l : List (String × Option String))
    (h hs : HeaderMap) (x : String)
    (hok : applyDirectives h l = .ok hs) :
    hs.get x = match revLookup x l with
               | some v => some v
               | none => h.get x := by
  induction l generalizing h with
  | nil =>
    simp only [applyDirectives] at hok
    cases hok
    simp [revLookup]
  | cons p rest ih =>
    obtain ⟨name, raw⟩ := p
    cases raw with
    | none =>
      simp only [applyDirectives, stepOpt] at hok
      rw [ih h hok]
      simp only [revLookup]
      cases hr : revLookup x rest with
      | some v => rfl
      | none => simp [ite_self]
    | some r =>
      simp only [applyDirectives, stepOpt, insertEncoded] at hok
      cases hv : headerValueFromStr r with
      | none =>
        rw [hv] at hok
        cases hok
      | some v =>
        rw [hv] at hok
        obtain ⟨hvalid, hvr⟩ := headerValueFromStr_some hv
        subst hvr
        rw [ih (h.insert name v) hok, HeaderMap.get_insert]
        simp only [revLookup]
        cases hr : revLookup x rest with
        | some w => rfl
        | none =>
          by_cases hc : normName x = normName name
          · simp [hc]
          · simp [hc]

theorem applyDirectives_ok_of_valid (l : List (String × Option String))
    (h : HeaderMap) (hval : directivesValid l = true) :
    ∃ hs, applyDirectives h l = .ok hs := by
  induction l generalizing h with
  | nil => exact ⟨h, rfl⟩
  | cons p rest ih =>
    obtain ⟨name, raw⟩ := p
    cases raw with
    | none =>
      simp only [directivesValid, List.all_cons, Bool.and_eq_true] at hval
      exact ih h hval.2
    | some r =>
      simp only [directivesValid, List.all_cons, Bool.and_eq_true] at hval
      obtain ⟨hr, hrest⟩ := hval
      simp only [applyDirectives, stepOpt, insertEncoded, headerValueFromStr,
        hr, if_true]
      exact ih (h.insert name r) hrest

theorem applyDirectives_error_of_invalid (l : List (String × Option String))
    (h : HeaderMap) (hval : directivesValid l = false) :
    applyDirectives h l = .error .PublishError := by
  induction l generalizing h with
  | nil => cases hval
  | cons p rest ih =>
    obtain ⟨name, raw⟩ := p
    cases raw with
    | none =>
      simp only [directivesValid, List.all_cons, Bool.and_eq_true] at hval ⊢
      simp only [applyDirectives, stepOpt]
      apply ih
      simpa [directivesValid] using hval
    | some r =>
      by_cases hr : isValidHeaderValueStr r
      · simp only [applyDirectives, stepOpt, insertEncoded,
          headerValueFromStr, hr, if_true]
        apply ih
        have : directivesValid ((name, some r) :: rest) =
            (isValidHeaderValueStr r && directivesValid rest) := by
          simp [directivesValid]
        rw [this, hr] at hval
        simpa using hval
      · have hrb : isValidHeaderValueStr r = false := by
          simpa using hr
        simp only [applyDirectives, stepOpt, insertEncoded,
          headerValueFromStr, hrb, Bool.false_eq_true, if_false]

theorem revLookup_congr (x y : String) (hxy : normName x = normName y)
    (l : List (String × Option String)) :
    revLookup x l = revLookup y l := by
  induction l with
  | nil => rfl
  | cons p rest ih =>
    obtain ⟨name, raw⟩ := p
    simp only [revLookup, ih, hxy]

theorem normName_method : normName "Upstash-Method" = "upstash-method" := by
  decide

theorem normName_delay : normName "Upstash-Delay" = "upstash-delay" := by
  decide

theorem normName_notBefore :
    normName "Upstash-Not-Before" = "upstash-not-before" := by decide

theorem normName_dedupId :
    normName "Upstash-Deduplication-Id" = "upstash-deduplication-id" := by
  decide

theorem normName_cbd :
    normName "Upstash-Content-Based-Deduplication" =
      "upstash-content-based-deduplication" := by decide

theorem normName_retries : normName "Upstash-Retries" = "upstash-retries" := by
  decide

theorem normName_callback :
    normName "Upstash-Callback" = "upstash-callback" := by decide

theorem normName_contentType :
    normName "Content-Type" = "content-type" := by decide

theorem revLookup_method (o : PublishOptions) :
    revLookup "Upstash-Method" (directiveList o) =
      some (o.method.getD "POST") := by
  simp [revLookup, directiveList, normName_method, normName_delay,
    normName_notBefore, normName_dedupId, normName_cbd, normName_retries,
    normName_callback]

theorem revLookup_delay (o : PublishOptions) :
    revLookup "Upstash-Delay" (directiveList o) =
      o.delay.map (fun d => toString d ++ "s") := by
  cases hd : o.delay <;>
    simp [revLookup, directiveList, hd, normName_method, normName_delay,
      normName_notBefore, normName_dedupId, normName_cbd, normName_retries,
      normName_callback]

theorem revLookup_notBefore (o : PublishOptions) :
    revLookup "Upstash-Not-Before" (directiveList o) =
      o.not_before.map (fun nb => toString nb) := by
  cases hd : o.not_before <;>
    simp [revLookup, directiveList, hd, normName_method, normName_delay,
      normName_notBefore, normName_dedupId, normName_cbd, normName_retries,
      normName_callback]

theorem revLookup_dedupId (o : PublishOptions) :
    revLookup "Upstash-Deduplication-Id" (directiveList o) =
      o.deduplication_id := by
  cases hd : o.deduplication_id <;>
    simp [revLookup, directiveList, hd, normName_method, normName_delay,
      normName_notBefore, normName_dedupId, normName_cbd, normName_retries,
      normName_callback]

theorem revLookup_cbd (o : PublishOptions) :
    revLookup "Upstash-Content-Based-Deduplication" (directiveList o) =
      o.content_based_deduplication.map (fun b => if b then "true" else "false") := by
  cases hd : o.content_based_deduplication <;>
    simp [revLookup, directiveList, hd, normName_method, normName_delay,
      normName_notBefore, normName_dedupId, normName_cbd, normName_retries,
      normName_callback]

theorem revLookup_retries (o : PublishOptions) :
    revLookup "Upstash-Retries" (directiveList o) =
      o.retries.map (fun r => toString r) := by
  cases hd : o.retries <;>
    simp [revLookup, directiveList, hd, normName_method, normName_delay,
      normName_notBefore, normName_dedupId, normName_cbd, normName_retries,
      normName_callback]

theorem revLookup_callback (o : PublishOptions) :
    revLookup "Upstash-Callback" (directiveList o) = o.callback := by
  cases hd : o.callback <;>
    simp [revLookup, directiveList, hd, normName_method, normName_delay,
      normName_notBefore, normName_dedupId, normName_cbd, normName_retries,
      normName_callback]

theorem revLookup_contentType (o : PublishOptions) :
    revLookup "Content-Type" (directiveList o) = none := by
  simp [revLookup, directiveList, normName_method, normName_delay,
    normName_notBefore, normName_dedupId, normName_cbd, normName_retries,
    normName_callback, normName_contentType]

theorem generate_headers_ok_get (o : PublishOptions) (hs : HeaderMap)
    (hok : generate_headers o = .ok hs) (x : String) :
    hs.get x = match revLookup x (directiveList o) with
               | some v => some v
               | none => (o.headers.getD HeaderMap.empty).get x :=
  applyDirectives_ok_get (directiveList o) _ hs x hok

/-- C1 counterexample: with both `delay` and `not_before` set, the
header set produced by `generate_headers` contains `Upstash-Not-Before`
AND also `Upstash-Delay`, refuting the claim that the delay header is
omitted. -/
theorem generate_headers_delay_also_sent_cex :
    ∃ hs, generate_headers exOptsDelayNotBefore = .ok hs ∧
      hs.get "Upstash-Not-Before" = some "10" ∧
      hs.get "Upstash-Delay" = some "5s" := by
  refine ⟨⟨[("upstash-method", "POST"), ("upstash-delay", "5s"),
    ("upstash-not-before", "10")]⟩, ?_, ?_, ?_⟩ <;> rfl

/-- C1 (amended): for every options value with both `delay` and
`not_before` set, the encoded header set contains BOTH
`Upstash-Not-Before` and `Upstash-Delay` with their respective
encodings; the encoder applies no client-side override, leaving
precedence to the server. -/
theorem generate_headers_both_delay_headers (o : PublishOptions)
    (d nb : Nat) (hd : o.delay = some d) (hnb : o.not_before = some nb)
    (hs : HeaderMap) (hok : generate_headers o = .ok hs) :
    hs.get "Upstash-Not-Before" = some (toString nb) ∧
    hs.get "Upstash-Delay" = some (toString d ++ "s") := by
  constructor
  · have h1 := generate_headers_ok_get o hs hok "Upstash-Not-Before"
    rw [revLookup_notBefore, hnb] at h1
    simpa using h1
  · have h1 := generate_headers_ok_get o hs hok "Upstash-Delay"
    rw [revLookup_delay, hd] at h1
    simpa using h1

/-- Witness for C1 (amended), at the concrete example options. -/
theorem generate_headers_both_delay_headers_witness :
    (⟨[("upstash-method", "POST"), ("upstash-delay", "5s"),
      ("upstash-not-before", "10")]⟩ : HeaderMap).get "Upstash-Not-Before" =
        some (toString 10) ∧
    (⟨[("upstash-method", "POST"), ("upstash-delay", "5s"),
      ("upstash-not-before", "10")]⟩ : HeaderMap).get "Upstash-Delay" =
        some (toString 5 ++ "s") :=
  generate_headers_both_delay_headers exOptsDelayNotBefore 5 10 rfl rfl _ rfl

/-- C3 counterexample: two different malformed options — a bad
deduplication id and a bad callback URL — produce identical error
values, and that value (`PublishError`) carries no field name, so the
caller cannot identify the offending option from the returned error. -/
theorem generate_headers_error_fieldless_cex :
    generate_headers exOptsBadDedup = .error QStashError.PublishError ∧
    generate_headers exOptsBadCallback = .error QStashError.PublishError ∧
    generate_headers exOptsBadDedup = generate_headers exOptsBadCallback :=
  ⟨rfl, rfl, rfl⟩

/-- C3 (amended): whenever a single delivery option's value cannot be
represented as a valid header value, the encoder fails — the validation
is applied per field — but the error returned is always the fieldless
`QStashError::PublishError`, identical for every offending field (the
field is only logged, not carried in the error). -/
theorem generate_headers_invalid_value_error (o : PublishOptions) :
    (∀ s, o.deduplication_id = some s → isValidHeaderValueStr s = false →
      generate_headers o = .error QStashError.PublishError) ∧
    (∀ s, o.callback = some s → isValidHeaderValueStr s = false →
      generate_headers o = .error QStashError.PublishError) ∧
    (isValidHeaderValueStr (o.method.getD "POST") = false →
      generate_headers o = .error QStashError.PublishError) := by
  refine ⟨fun s hsd hbad => ?_, fun s hsd hbad => ?_, fun hbad => ?_⟩
  · apply applyDirectives_error_of_invalid
    simp [directivesValid, directiveList, hsd, hbad]
  · apply applyDirectives_error_of_invalid
    simp [directivesValid, directiveList, hsd, hbad]
  · apply applyDirectives_error_of_invalid
    simp [directivesValid, directiveList, hbad]

/-- Witness for C3 (amended), at the concrete bad-deduplication-id
options. -/
theorem generate_headers_invalid_value_error_witness :
    generate_headers exOptsBadDedup = .error QStashError.PublishError :=
  (generate_headers_invalid_value_error exOptsBadDedup).1 "a\nb" rfl (by decide)

/-- C7: caller-supplied pass-through headers are the starting map, so
every emitted directive header overwrites a caller-supplied header of
the same (case-insensitive) name — the directive value wins — while
every caller-supplied header whose name matches no emitted directive
appears unchanged in the output. -/
theorem generate_headers_caller_merge (o : PublishOptions)
    (h0 hs : HeaderMap) (hh : o.headers = some h0)
    (hok : generate_headers o = .ok hs) :
    hs.get "Upstash-Method" = some (o.method.getD "POST") ∧
    (∀ d, o.delay = some d →
      hs.get "Upstash-Delay" = some (toString d ++ "s")) ∧
    (∀ nb, o.not_before = some nb →
      hs.get "Upstash-Not-Before" = some (toString nb)) ∧
    (∀ s, o.deduplication_id = some s →
      hs.get "Upstash-Deduplication-Id" = some s) ∧
    (∀ b, o.content_based_deduplication = some b →
      hs.get "Upstash-Content-Based-Deduplication" =
        some (if b then "true" else "false")) ∧
    (∀ r, o.retries = some r → hs.get "Upstash-Retries" = some (toString r)) ∧
    (∀ s, o.callback = some s → hs.get "Upstash-Callback" = some s) ∧
    (∀ n, revLookup n (directiveList o) = none → hs.get n = h0.get n) := by
  have key := generate_headers_ok_get o hs hok
  refine ⟨?_, fun d hd => ?_, fun nb hnb => ?_, fun s hsd => ?_,
    fun b hb => ?_, fun r hr => ?_, fun s hcb => ?_, fun n hn => ?_⟩
  · have h1 := key "Upstash-Method"
    rw [revLookup_method] at h1
    simpa using h1
  · have h1 := key "Upstash-Delay"
    rw [revLookup_delay, hd] at h1
    simpa using h1
  · have h1 := key "Upstash-Not-Before"
    rw [revLookup_notBefore, hnb] at h1
    simpa using h1
  · have h1 := key "Upstash-Deduplication-Id"
    rw [revLookup_dedupId, hsd] at h1
    simpa using h1
  · have h1 := key "Upstash-Content-Based-Deduplication"
    rw [revLookup_cbd, hb] at h1
    simpa using h1
  · have h1 := key "Upstash-Retries"
    rw [revLookup_retries, hr] at h1
    simpa using h1
  · have h1 := key "Upstash-Callback"
    rw [revLookup_callback, hcb] at h1
    simpa using h1
  · have h1 := key n
    rw [hn, hh] at h1
    simpa using h1

/-- Witness for C7, with a caller map whose `upstash-method` entry is
overwritten by the directive value and whose `x-custom` entry survives
unchanged. -/
theorem generate_headers_caller_merge_witness :
    (⟨[("x-custom", "1"), ("upstash-method", "POST"),
      ("upstash-delay", "7s")]⟩ : HeaderMap).get "Upstash-Method" =
        some "POST" ∧
    (⟨[("x-custom", "1"), ("upstash-method", "POST"),
      ("upstash-delay", "7s")]⟩ : HeaderMap).get "Upstash-Delay" =
        some (toString 7 ++ "s") ∧
    (⟨[("x-custom", "1"), ("upstash-method", "POST"),
      ("upstash-delay", "7s")]⟩ : HeaderMap).get "x-custom" =
      (⟨[("upstash-method", "DELETE"), ("x-custom", "1")]⟩ : HeaderMap).get
        "x-custom" := by
  have h := generate_headers_caller_merge exOptsCallerHeaders
    ⟨[("upstash-method", "DELETE"), ("x-custom", "1")]⟩
    ⟨[("x-custom", "1"), ("upstash-method", "POST"), ("upstash-delay", "7s")]⟩
    rfl rfl
  exact ⟨h.1, h.2.1 7 rfl, h.2.2.2.2.2.2.2 "x-custom" (by decide)⟩

/-- C2 counterexample: when the options argument is absent, the JSON
convenience path skips `generate_headers` entirely, so its request lacks
the `Upstash-Method: POST` header that the raw-body path (given the same
pre-serialized JSON body and empty options) always inserts — the headers
are not identical. -/
theorem publish_json_no_options_cex :
    ∃ bj br,
      buildPublishJsonRequest "v2" (.url "https://example.com") "\x7b\x7d"
        none = .ok bj ∧
      buildPublishRequest "v2"
        (requestForPreserializedJson (.url "https://example.com") "\x7b\x7d"
          {}) = .ok br ∧
      bj.headers.get "Upstash-Method" = none ∧
      br.headers.get "Upstash-Method" = some "POST" ∧
      bj.headers ≠ br.headers := by
  refine ⟨⟨"POST", "/v2/publish/https://example.com",
    ⟨[("content-type", "application/json")]⟩, some "\x7b\x7d"⟩,
    ⟨"POST", "/v2/publish/https://example.com",
    ⟨[("content-type", "application/json"), ("upstash-method", "POST")]⟩,
    some "\x7b\x7d"⟩, ?_, ?_, ?_, ?_, ?_⟩
  · rfl
  · rfl
  · rfl
  · rfl
  · decide

theorem containsName_of_get (m : HeaderMap) (n : String) :
    m.containsName n = (m.get n).isSome := rfl

theorem jsonBaseline_commutes (o : PublishOptions) (g g' : HeaderMap)
    (hg : applyDirectives (o.headers.getD HeaderMap.empty)
      (directiveList o) = .ok g)
    (hg' : applyDirectives
      (jsonBaselineHeaders (o.headers.getD HeaderMap.empty))
      (directiveList o) = .ok g')
    (n : String) : (jsonBaselineHeaders g).get n = g'.get n := by
  have kg : ∀ x, g.get x = match revLookup x (directiveList o) with
      | some v => some v
      | none => (o.headers.getD HeaderMap.empty).get x :=
    fun x => applyDirectives_ok_get _ _ _ x hg
  have kg' : ∀ x, g'.get x = match revLookup x (directiveList o) with
      | some v => some v
      | none => (jsonBaselineHeaders (o.headers.getD HeaderMap.empty)).get x :=
    fun x => applyDirectives_ok_get _ _ _ x hg'
  have gct : g.get "Content-Type" =
      (o.headers.getD HeaderMap.empty).get "Content-Type" := by
    have h1 := kg "Content-Type"
    rw [revLookup_contentType] at h1
    simpa using h1
  by_cases hct : (o.headers.getD HeaderMap.empty).containsName
      "Content-Type" = true
  · have hB : jsonBaselineHeaders (o.headers.getD HeaderMap.empty) =
        o.headers.getD HeaderMap.empty := by
      simp [jsonBaselineHeaders, hct]
    have hgc : g.containsName "Content-Type" = true := by
      rw [containsName_of_get, gct]
      rw [containsName_of_get] at hct
      exact hct
    have hBg : jsonBaselineHeaders g = g := by
      simp [jsonBaselineHeaders, hgc]
    rw [hBg, kg n, kg' n, hB]
  · have hct' : (o.headers.getD HeaderMap.empty).containsName
        "Content-Type" = false := by simpa using hct
    have hB : jsonBaselineHeaders (o.headers.getD HeaderMap.empty) =
        (o.headers.getD HeaderMap.empty).insert "Content-Type"
          "application/json" := by
      simp [jsonBaselineHeaders, hct']
    have hgc : g.containsName "Content-Type" = false := by
      rw [containsName_of_get, gct]
      rw [containsName_of_get] at hct'
      exact hct'
    have hBg : jsonBaselineHeaders g =
        g.insert "Content-Type" "application/json" := by
      simp [jsonBaselineHeaders, hgc]
    rw [hBg, HeaderMap.get_insert, kg' n, hB]
    by_cases hn : normName n = normName "Content-Type"
    · rw [if_pos hn]
      have hrn : revLookup n (directiveList o) = none := by
        rw [revLookup_congr n "Content-Type" hn]
        exact revLookup_contentType o
      rw [hrn]
      simp [HeaderMap.get_insert, if_pos hn]
    · rw [if_neg hn, kg n]
      cases hr : revLookup n (directiveList o) with
      | some v => simp
      | none => simp [HeaderMap.get_insert, if_neg hn]

/-- C2 (amended): when an options value IS provided, the JSON
convenience path is equivalent to the raw-body path given the
pre-serialized JSON body, the same options, and the JSON content-type
baseline applied to the pass-through headers: the two constructions fail
identically, and on success produce the same transport verb, path, body
and the same header content (as a name-to-value mapping). When the
options argument is absent the equivalence fails: the JSON path skips
`generate_headers` and omits the `Upstash-Method` header (see the
counterexample). -/
theorem publish_json_refines_publish (version : String)
    (url : PublishRequestUrl) (body : String) (o : PublishOptions) :
    (∀ e, buildPublishJsonRequest version url body (some o) = .error e ↔
      buildPublishRequest version
        (requestForPreserializedJson url body o) = .error e) ∧
    (∀ bj br, buildPublishJsonRequest version url body (some o) = .ok bj →
      buildPublishRequest version
        (requestForPreserializedJson url body o) = .ok br →
      bj.httpMethod = br.httpMethod ∧ bj.path = br.path ∧
      bj.body = br.body ∧ ∀ n, bj.headers.get n = br.headers.get n) := by
  have hL : generate_headers o =
      applyDirectives (o.headers.getD HeaderMap.empty) (directiveList o) := rfl
  have hR : generate_headers
      (optionsOfRequest (requestForPreserializedJson url body o)) =
      applyDirectives (jsonBaselineHeaders (o.headers.getD HeaderMap.empty))
        (directiveList o) := rfl
  by_cases hv : directivesValid (directiveList o) = true
  · obtain ⟨g, hg⟩ :=
      applyDirectives_ok_of_valid (directiveList o)
        (o.headers.getD HeaderMap.empty) hv
    obtain ⟨g', hg'⟩ :=
      applyDirectives_ok_of_valid (directiveList o)
        (jsonBaselineHeaders (o.headers.getD HeaderMap.empty)) hv
    have b1 : buildPublishJsonRequest version url body (some o) =
        .ok ⟨"POST", "/" ++ version ++ "/publish/" ++ targetString url,
          jsonBaselineHeaders g, some body⟩ := by
      simp [buildPublishJsonRequest, hL, hg, jsonBaselineHeaders]
    have b2 : buildPublishRequest version
        (requestForPreserializedJson url body o) =
        .ok ⟨"POST", "/" ++ version ++ "/publish/" ++ targetString url,
          g', some body⟩ := by
      simp [buildPublishRequest, hR, hg']
      exact ⟨rfl, rfl⟩
    constructor
    · intro e
      rw [b1, b2]
      constructor
      · intro h; exact absurd h (by simp)
      · intro h; exact absurd h (by simp)
    · intro bj br h1 h2
      have hbj : (⟨"POST", "/" ++ version ++ "/publish/" ++ targetString url,
          jsonBaselineHeaders g, some body⟩ : BuiltRequest) = bj :=
        Except.ok.inj (b1.symm.trans h1)
      have hbr : (⟨"POST", "/" ++ version ++ "/publish/" ++ targetString url,
          g', some body⟩ : BuiltRequest) = br :=
        Except.ok.inj (b2.symm.trans h2)
      subst hbj
      subst hbr
      exact ⟨rfl, rfl, rfl, jsonBaseline_commutes o g g' hg hg'⟩
  · have hv' : directivesValid (directiveList o) = false := by simpa using hv
    have e1 := applyDirectives_error_of_invalid (directiveList o)
      (o.headers.getD HeaderMap.empty) hv'
    have e2 := applyDirectives_error_of_invalid (directiveList o)
      (jsonBaselineHeaders (o.headers.getD HeaderMap.empty)) hv'
    have b1 : buildPublishJsonRequest version url body (some o) =
        .error .PublishError := by
      simp [buildPublishJsonRequest, hL, e1]
    have b2 : buildPublishRequest version
        (requestForPreserializedJson url body o) = .error .PublishError := by
      simp [buildPublishRequest, hR, e2]
    constructor
    · intro e
      rw [b1, b2]
    · intro bj br h1 h2
      rw [b1] at h1
      exact absurd h1 (by simp)

/-- Witness for C2 (amended), at concrete options with a pass-through
header and a delay: both paths build successfully and agree on verb,
path, body and header content. -/
theorem publish_json_refines_publish_witness :
    buildPublishJsonRequest "v2" (.topic "t") "[1]" (some exOptsJson) =
      .ok ⟨"POST", "/v2/publish/t",
        ⟨[("x-custom", "1"), ("upstash-method", "POST"),
          ("upstash-delay", "30s"), ("content-type", "application/json")]⟩,
        some "[1]"⟩ ∧
    buildPublishRequest "v2"
      (requestForPreserializedJson (.topic "t") "[1]" exOptsJson) =
      .ok ⟨"POST", "/v2/publish/t",
        ⟨[("x-custom", "1"), ("content-type", "application/json"),
          ("upstash-method", "POST"), ("upstash-delay", "30s")]⟩,
        some "[1]"⟩ ∧
    ((⟨"POST", "/v2/publish/t",
        ⟨[("x-custom", "1"), ("upstash-method", "POST"),
          ("upstash-delay", "30s"), ("content-type", "application/json")]⟩,
        some "[1]"⟩ : BuiltRequest).httpMethod =
      (⟨"POST", "/v2/publish/t",
        ⟨[("x-custom", "1"), ("content-type", "application/json"),
          ("upstash-method", "POST"), ("upstash-delay", "30s")]⟩,
        some "[1]"⟩ : BuiltRequest).httpMethod ∧
     (⟨"POST", "/v2/publish/t",
        ⟨[("x-custom", "1"), ("upstash-method", "POST"),
          ("upstash-delay", "30s"), ("content-type", "application/json")]⟩,
        some "[1]"⟩ : BuiltRequest).path =
      (⟨"POST", "/v2/publish/t",
        ⟨[("x-custom", "1"), ("content-type", "application/json"),
          ("upstash-method", "POST"), ("upstash-delay", "30s")]⟩,
        some "[1]"⟩ : BuiltRequest).path ∧
     (⟨"POST", "/v2/publish/t",
        ⟨[("x-custom", "1"), ("upstash-method", "POST"),
          ("upstash-delay", "30s"), ("content-type", "application/json")]⟩,
        some "[1]"⟩ : BuiltRequest).body =
      (⟨"POST", "/v2/publish/t",
        ⟨[("x-custom", "1"), ("content-type", "application/json"),
          ("upstash-method", "POST"), ("upstash-delay", "30s")]⟩,
        some "[1]"⟩ : BuiltRequest).body ∧
     ∀ n, (⟨"POST", "/v2/publish/t",
        ⟨[("x-custom", "1"), ("upstash-method", "POST"),
          ("upstash-delay", "30s"), ("content-type", "application/json")]⟩,
        some "[1]"⟩ : BuiltRequest).headers.get n =
      (⟨"POST", "/v2/publish/t",
        ⟨[("x-custom", "1"), ("content-type", "application/json"),
          ("upstash-method", "POST"), ("upstash-delay", "30s")]⟩,
        some "[1]"⟩ : BuiltRequest).headers.get n) :=
  ⟨rfl, rfl,
    (publish_json_refines_publish "v2" (.topic "t") "[1]" exOptsJson).2
      _ _ rfl rfl⟩

/-- C4: a received HTTP response is never by itself a failure — the
decode does not consult the status code, so whenever the body decodes
into the expected shape the call returns `Ok` whatever the status, and a
service-reported error string comes back as data inside the outcome's
`error` field, not as a returned failure. -/
theorem publish_response_not_transport_failure (dest : PublishRequestUrl)
    (st st2 : Nat) (body : Option Json) :
    (∀ rs, decodeResponse dest body = .ok rs →
      publishAfterSend dest (.response st body) = .ok rs) ∧
    publishAfterSend dest (.response st body) =
      publishAfterSend dest (.response st2 body) ∧
    (∀ u s, publishAfterSend (.url u)
        (.response st (some (.obj [("error", Json.str s)]))) =
      .ok [{ message_id := none, url := none, error := some s,
             deduplicated := none }]) := by
  refine ⟨fun rs h => ?_, rfl, fun u s => rfl⟩
  simpa [publishAfterSend] using h

/-- Witness for C4, at a 401-status response whose body is the
service-reported error object. -/
theorem publish_response_not_transport_failure_witness :
    publishAfterSend (.url "https://example.com")
      (.response 401 (some (.obj [("error", Json.str "invalid token")]))) =
      .ok [{ message_id := none, url := none, error := some "invalid token",
             deduplicated := none }] :=
  (publish_response_not_transport_failure (.url "https://example.com")
    401 200 (some (.obj [("error", Json.str "invalid token")]))).1
    [{ message_id := none, url := none, error := some "invalid token",
       deduplicated := none }] rfl

/-- C5: a publish to a DirectUrl destination that succeeds always
returns exactly one outcome, whatever the response body contains; the
decode mode is keyed by the destination variant, so even an array-shaped
body is not list-decoded — in single mode it is a decode error, never a
multi-element result. -/
theorem publish_url_single_outcome (u : String) (tr : TransportResult)
    (rs : List QstashResponse)
    (hok : publishAfterSend (.url u) tr = .ok rs) :
    rs.length = 1 ∧
    ∀ st (xs : List Json),
      publishAfterSend (.url u) (.response st (some (.arr xs))) =
        .error QStashError.PublishError := by
  refine ⟨?_, fun st xs => rfl⟩
  cases tr with
  | failure => exact absurd hok (by simp [publishAfterSend])
  | response st body =>
    cases body with
    | none => exact absurd hok (by simp [publishAfterSend, decodeResponse])
    | some j =>
      simp only [publishAfterSend, decodeResponse] at hok
      cases hp : parseQstashResponse j with
      | none => rw [hp] at hok; exact absurd hok (by simp)
      | some r =>
        rw [hp] at hok
        cases hok
        rfl

/-- Witness for C5, at a 200-status single-outcome response. -/
theorem publish_url_single_outcome_witness :
    ([{ message_id := some "abc", url := some "https://example.com",
        error := none, deduplicated := none }] :
      List QstashResponse).length = 1 ∧
    ∀ st (xs : List Json),
      publishAfterSend (.url "https://example.com")
        (.response st (some (.arr xs))) =
        .error QStashError.PublishError :=
  publish_url_single_outcome "https://example.com"
    (.response 200 (some (.obj [("messageId", Json.str "abc"),
      ("url", Json.str "https://example.com")])))
    [{ message_id := some "abc", url := some "https://example.com",
       error := none, deduplicated := none }] rfl

/-- C8: whenever the response body cannot be parsed into the expected
shape for the destination kind — a single outcome object for a direct
URL, an array of outcome objects for a topic, or any syntactically
invalid JSON body — the publish call returns an error, never a
successful empty result. -/
theorem publish_decode_failure_is_error :
    (∀ u st (j : Json), parseQstashResponse j = none →
      publishAfterSend (.url u) (.response st (some j)) =
        .error QStashError.PublishError) ∧
    (∀ t st (j : Json), parseQstashResponseList j = none →
      publishAfterSend (.topic t) (.response st (some j)) =
        .error QStashError.PublishError) ∧
    (∀ dest st, publishAfterSend dest (.response st none) =
      .error QStashError.PublishError) := by
  refine ⟨fun u st j h => ?_, fun t st j h => ?_, fun dest st => ?_⟩
  · simp [publishAfterSend, decodeResponse, h]
  · simp [publishAfterSend, decodeResponse, h]
  · cases dest <;> rfl

/-- Witness for C8, at a body that is a bare string in both modes. -/
theorem publish_decode_failure_is_error_witness :
    publishAfterSend (.url "https://example.com")
      (.response 200 (some (.str "oops"))) =
      .error QStashError.PublishError ∧
    publishAfterSend (.topic "t") (.response 200 (some (.str "oops"))) =
      .error QStashError.PublishError :=
  ⟨publish_decode_failure_is_error.1 "https://example.com" 200
      (.str "oops") rfl,
    publish_decode_failure_is_error.2.1 "t" 200 (.str "oops") rfl⟩

/-- C9: `cancel_message` returns `Ok(())` exactly when the received
response has a 2xx status; any non-success status and any transport
failure yield `DeleteMessageError` — unlike publish, where a non-2xx
response with a decodable body still returns `Ok` (last conjunct). -/
theorem cancel_message_success_iff (st : Nat) (body : Option Json) :
    (cancelMessageResult (.response st body) = .ok () ↔
      isSuccessStatus st = true) ∧
    (cancelMessageResult (.response st body) =
        .error QStashError.DeleteMessageError ↔
      isSuccessStatus st = false) ∧
    cancelMessageResult .failure = .error QStashError.DeleteMessageError ∧
    (∀ u s st2, publishAfterSend (.url u)
        (.response st2 (some (.obj [("error", Json.str s)]))) =
      .ok [{ message_id := none, url := none, error := some s,
             deduplicated := none }]) := by
  refine ⟨?_, ?_, rfl, fun u s st2 => rfl⟩
  · by_cases h : isSuccessStatus st = true
    · simp [cancelMessageResult, h]
    · have h' : isSuccessStatus st = false := by simpa using h
      simp [cancelMessageResult, h']
  · by_cases h : isSuccessStatus st = true
    · simp [cancelMessageResult, h]
    · have h' : isSuccessStatus st = false := by simpa using h
      simp [cancelMessageResult, h']

theorem parseResponses_length_get (xs : List Json)
    (ys : List QstashResponse) (h : parseResponses xs = some ys) :
    ys.length = xs.length ∧
    ∀ i (hx : i < xs.length) (hy : i < ys.length),
      parseQstashResponse (xs.get ⟨i, hx⟩) = some (ys.get ⟨i, hy⟩) := by
  induction xs generalizing ys with
  | nil =>
    simp only [parseResponses] at h
    cases h
    exact ⟨rfl, fun i hx hy => absurd hx (by simp)⟩
  | cons x xs ih =>
    simp only [parseResponses] at h
    cases hr : parseQstashResponse x with
    | none => rw [hr] at h; cases h
    | some r =>
      rw [hr] at h
      cases hrs : parseResponses xs with
      | none => rw [hrs] at h; cases h
      | some rs =>
        rw [hrs] at h
        cases h
        obtain ⟨hlen, hget⟩ := ih rs hrs
        refine ⟨by simp [hlen], fun i hx hy => ?_⟩
        cases i with
        | zero => simpa using hr
        | succ j =>
          have hx' : j < xs.length := by simpa using hx
          have hy' : j < rs.length := by simpa using hy
          simpa using hget j hx' hy'

/-- C6: a publish to a Topic destination that succeeds returns the
outcomes in exactly the server's array order: the lengths agree and the
i-th returned outcome is the decoding of the i-th element of the
response array. -/
theorem publish_topic_preserves_order (t : String) (st : Nat)
    (elems : List Json) (rs : List QstashResponse)
    (hok : publishAfterSend (.topic t)
      (.response st (some (.arr elems))) = .ok rs) :
    rs.length = elems.length ∧
    ∀ i (he : i < elems.length) (hr : i < rs.length),
      parseQstashResponse (elems.get ⟨i, he⟩) = some (rs.get ⟨i, hr⟩) := by
  simp only [publishAfterSend, decodeResponse, parseQstashResponseList]
    at hok
  cases hp : parseResponses elems with
  | none => rw [hp] at hok; cases hok
  | some ys =>
    rw [hp] at hok
    cases hok
    exact parseResponses_length_get elems _ hp

/-- Witness for C6, at the three-element example response: the three
outcomes come back in the server's order. -/
theorem publish_topic_preserves_order_witness :
    exTopicOutcomes.length = exTopicElems.length ∧
    parseQstashResponse (exTopicElems.get ⟨0, by decide⟩) =
      some (exTopicOutcomes.get ⟨0, by decide⟩) ∧
    parseQstashResponse (exTopicElems.get ⟨1, by decide⟩) =
      some (exTopicOutcomes.get ⟨1, by decide⟩) ∧
    parseQstashResponse (exTopicElems.get ⟨2, by decide⟩) =
      some (exTopicOutcomes.get ⟨2, by decide⟩) := by
  have h := publish_topic_preserves_order "t" 200 exTopicElems
    exTopicOutcomes rfl
  exact ⟨h.1, h.2 0 (by decide) (by decide), h.2 1 (by decide) (by decide),
    h.2 2 (by decide) (by decide)⟩

/-- C10: when an event's `state` field holds a value that does not
decode as a `State`, the event still decodes — exactly as it would with
`state` equal to the default `ERROR` — so the bad state's only effect is
the `ERROR` fallback: every other field decodes normally, any produced
event carries `State.ERROR`, and list decoding of the surrounding
response treats the event like any successfully decoded element. -/
theorem event_unknown_state_defaults_to_error
    (fs : List (String × Json)) (sj : Json)
    (hst : jlookup fs "state" = some sj) (hbad : parseState sj = none) :
    parseEvent (.obj fs) = parseEventFields State.ERROR fs ∧
    (∀ ev, parseEventFields State.ERROR fs = some ev →
      ev.state = State.ERROR) ∧
    (∀ rest, parseEvents (Json.obj fs :: rest) =
      match parseEventFields State.ERROR fs, parseEvents rest with
      | some e, some es => some (e :: es)
      | _, _ => none) := by
  have h1 : parseEvent (.obj fs) = parseEventFields State.ERROR fs := by
    simp [parseEvent, hst, stateOrDefault, hbad]
  refine ⟨h1, fun ev hev => ?_, fun rest => ?_⟩
  · unfold parseEventFields at hev
    split at hev
    · cases hev
      rfl
    · cases hev
  · simp only [parseEvents, h1]

/-- Witness for C10, at an event object whose state is the unrecognized
string `SOMETHING_NEW`: the event decodes with state `ERROR` and its
other fields intact. -/
theorem event_unknown_state_defaults_to_error_witness :
    parseEvent (Json.obj exEventObj) =
      parseEventFields State.ERROR exEventObj ∧
    parseEvent (Json.obj exEventObj) =
      some { time := 5, state := State.ERROR, message_id := "m1",
             next_delivery_time := none, error := none, url := none,
             topic_name := none, endpoint_name := none } := by
  have h := event_unknown_state_defaults_to_error exEventObj
    (.str "SOMETHING_NEW") rfl rfl
  exact ⟨h.1, by rw [h.1]; rfl⟩
